import Mathlib

/-!
Verification of the lumascope event pipeline (scraper.py / llm_handler.py)
against its natural-language specification.

The Python sources are shallowly embedded: pure string/list manipulation
becomes Lean functions on `List Char` / `List` values, JSON dictionaries
become typed records or association lists, the network is an oracle
parameter (a function from the attempt index, or from the batch, to the
observed response), and retry loops become fuel-based recursions whose
fuel is the literal attempt bound from the source.  All definitions are
computable and fuel/structural so that concrete runs evaluate by `decide`.
-/

set_option autoImplicit false

namespace Lumascope

/-! ## Enrichment retry loop (llm_handler.py, `process_batch_async`, lines 134-155)

One attempt of the `for attempt in range(5)` loop observes one of:
* a 429 response (`resp.status_code == 429` branch),
* a success (2xx, so `resp.raise_for_status()` passes and the loop breaks),
* an exception (`client.post` raising, or `raise_for_status` raising on a
  non-2xx non-429 status) which lands in the `except` branch.
-/

inductive AttemptOutcome where
  | ok
  | r429
  | exn
deriving DecidableEq

/-- Terminal state of the retry loop.
* `success k w`: loop broke at attempt `k` after sleeping the waits `w`.
* `raised k w`: the `except` branch re-raised at (final) attempt `k`.
* `fellThrough429 w`: all five attempts saw 429; the `continue` on the last
  attempt exhausts the loop and control falls through to `resp.json()`
  on the final 429 response (no `raise_for_status` on this path). -/
inductive BatchLoopResult where
  | success (attemptIdx : Nat) (waits : List ℚ)
  | raised (attemptIdx : Nat) (waits : List ℚ)
  | fellThrough429 (waits : List ℚ)
deriving DecidableEq

def waits_of : BatchLoopResult → List ℚ
  | .success _ w => w
  | .raised _ w => w
  | .fellThrough429 w => w

/-- The loop body: `a` is the current attempt index, `fuel` the remaining
number of attempts (including the current one), `delay` the current value of
`retry_delay`, `waits` the sleeps performed so far (reversed).
Note that `retry_delay *= 1.5` happens only in the 429 branch; the
`except` branch sleeps the *current* `retry_delay` without escalating it. -/
def process_batch_retry_loop (outcome : Nat → AttemptOutcome) :
    Nat → Nat → ℚ → List ℚ → BatchLoopResult
  | _, 0, _, waits => .fellThrough429 waits.reverse
  | a, fuel + 1, delay, waits =>
    match outcome a with
    | .ok => .success a waits.reverse
    | .r429 =>
        process_batch_retry_loop outcome (a + 1) fuel (delay * (3 / 2)) (delay :: waits)
    | .exn =>
        if fuel = 0 then .raised a waits.reverse
        else process_batch_retry_loop outcome (a + 1) fuel delay (delay :: waits)

/-- `max_retries = 5`, `retry_delay = 10` (llm_handler.py lines 134-135). -/
def process_batch_retry (outcome : Nat → AttemptOutcome) : BatchLoopResult :=
  process_batch_retry_loop outcome 0 5 10 []

/-- The escalating backoff schedule claimed by the spec: starting at `d`,
multiplied by 1.5 at every attempt. -/
def backoff_waits : Nat → ℚ → List ℚ
  | 0, _ => []
  | k + 1, d => d :: backoff_waits k (d * (3 / 2))

theorem process_batch_retry_loop_waits_len (outcome : Nat → AttemptOutcome) :
    ∀ fuel a delay waits,
      (waits_of (process_batch_retry_loop outcome a fuel delay waits)).length ≤
        waits.length + fuel := by
  intro fuel
  induction fuel with
  | zero =>
      intro a delay waits
      simp only [process_batch_retry_loop, waits_of, List.length_reverse]
      omega
  | succ n ih =>
      intro a delay waits
      rcases ho : outcome a with _ | _ | _
      · simp only [process_batch_retry_loop, ho, waits_of, List.length_reverse]
        omega
      · have := ih (a + 1) (delay * (3 / 2)) (delay :: waits)
        simp only [process_batch_retry_loop, ho]
        simp only [List.length_cons] at this
        omega
      · by_cases hn : n = 0
        · subst hn
          simp [process_batch_retry_loop, ho, waits_of]
        · have := ih (a + 1) delay (delay :: waits)
          simp only [process_batch_retry_loop, ho, if_neg hn]
          simp only [List.length_cons] at this
          omega

theorem process_batch_retry_loop_raised_idx (outcome : Nat → AttemptOutcome) :
    ∀ fuel a delay waits k w,
      process_batch_retry_loop outcome a fuel delay waits = .raised k w →
      k + 1 = a + fuel := by
  intro fuel
  induction fuel with
  | zero =>
      intro a delay waits k w h
      simp only [process_batch_retry_loop] at h
      exact BatchLoopResult.noConfusion h
  | succ n ih =>
      intro a delay waits k w h
      rcases ho : outcome a with _ | _ | _
      · simp only [process_batch_retry_loop, ho] at h
        exact BatchLoopResult.noConfusion h
      · simp only [process_batch_retry_loop, ho] at h
        have := ih (a + 1) (delay * (3 / 2)) (delay :: waits) k w h
        omega
      · by_cases hn : n = 0
        · subst hn
          simp only [process_batch_retry_loop, ho, if_pos rfl,
            BatchLoopResult.raised.injEq] at h
          obtain ⟨h1, _⟩ := h
          omega
        · simp only [process_batch_retry_loop, ho, if_neg hn] at h
          have := ih (a + 1) delay (delay :: waits) k w h
          omega

/-- C1 counterexample: on five consecutive non-429 exceptions the code
sleeps a constant 10 seconds between attempts — the wait is *not*
escalated by 1.5 as the claim states (only the 429 branch multiplies
`retry_delay`), so the actual waits differ from the claimed backoff
schedule `[10, 15, 22.5, 33.75]`. -/
theorem c1_counterexample :
    process_batch_retry (fun _ => AttemptOutcome.exn) =
      BatchLoopResult.raised 4 [10, 10, 10, 10] ∧
    waits_of (process_batch_retry (fun _ => AttemptOutcome.exn)) ≠ backoff_waits 4 10 := by
  constructor
  · decide
  · norm_num [process_batch_retry, process_batch_retry_loop, backoff_waits, waits_of]

/-- C1 (amended): on HTTP 429 the wait starts at 10 s and is multiplied by
1.5 on each 429; `k` consecutive 429s followed by a success sleep exactly
the escalating schedule `backoff_waits k 10`.  A non-429 exception is
retried after sleeping the *current* delay, which is not escalated, so five
consecutive exceptions sleep `[10,10,10,10]` and the fifth attempt's
exception propagates out of the batch task.  Five consecutive 429s do not
propagate an HTTP error: the loop exhausts after the fifth sleep and control
falls through to parsing the last 429 response.  At most 5 attempts (hence
at most 5 sleeps) ever happen, and a propagated exception is always the
fifth attempt's. -/
theorem c1_retry_policy (k : Nat) (hk : k ≤ 4) :
    (process_batch_retry (fun i => if i < k then AttemptOutcome.r429 else AttemptOutcome.ok) =
      BatchLoopResult.success k (backoff_waits k 10)) ∧
    (process_batch_retry (fun _ => AttemptOutcome.exn) =
      BatchLoopResult.raised 4 [10, 10, 10, 10]) ∧
    (process_batch_retry (fun _ => AttemptOutcome.r429) =
      BatchLoopResult.fellThrough429 [10, 15, 45/2, 135/4, 405/8]) ∧
    (∀ outcome, (waits_of (process_batch_retry outcome)).length ≤ 5) ∧
    (∀ outcome j w, process_batch_retry outcome = BatchLoopResult.raised j w → j = 4) := by
  refine ⟨?_, by decide, ?_, ?_, ?_⟩
  · interval_cases k <;>
      norm_num [process_batch_retry, process_batch_retry_loop, backoff_waits]
  · norm_num [process_batch_retry, process_batch_retry_loop]
  · intro outcome
    have := process_batch_retry_loop_waits_len outcome 5 0 10 []
    simpa [process_batch_retry] using this
  · intro outcome j w h
    have := process_batch_retry_loop_raised_idx outcome 5 0 10 [] j w h
    omega

/-- Witness for `c1_retry_policy` at `k = 3`: the spec's own scenario of
three 429s then a success, with nominal waits 10 s, 15 s, 22.5 s. -/
theorem c1_retry_policy_witness :
    3 ≤ 4 ∧
    (process_batch_retry (fun i => if i < 3 then AttemptOutcome.r429 else AttemptOutcome.ok) =
      BatchLoopResult.success 3 (backoff_waits 3 10)) :=
  ⟨by decide, (c1_retry_policy 3 (by decide)).1⟩

/-! ## Calendar-items extraction (scraper.py, `fetch_calendar_api_events`, lines 181-191)

The response body of the calendar API, restricted to the four key paths the
code reads.  A path that is absent from the JSON object is `none`; a path
that is present holds the list it maps to (which may be empty — and an
empty list is falsy for Python `or`).  `data.get("data", {})` defaults to an
empty sub-object. -/

structure ApiSub (α : Type) where
  entries : Option (List α)
  items : Option (List α)
deriving DecidableEq

structure ApiData (α : Type) where
  items : Option (List α)
  entries : Option (List α)
  data : Option (ApiSub α)
deriving DecidableEq

/-- Python `x or y` on a `.get` result: `none` and the empty list are falsy. -/
def pyOrList {α : Type} (a : Option (List α)) (b : List α) : List α :=
  match a with
  | some l => if l.isEmpty then b else l
  | none => b

/-- `data.get("items") or data.get("entries") or data.get("data", {}).get("entries")
or data.get("data", {}).get("items") or []` (scraper.py lines 183-189). -/
def extract_items {α : Type} (d : ApiData α) : List α :=
  let sub := d.data.getD ⟨none, none⟩
  pyOrList d.items (pyOrList d.entries (pyOrList sub.entries (pyOrList sub.items [])))

/-- Modelled from the spec's words, for refinement comparison: "extract an
items array from one of several possible response-shape locations … take the
first present", i.e. the first of the four paths that exists in the JSON
object, regardless of whether it is empty. -/
def extract_items_first_present {α : Type} (d : ApiData α) : List α :=
  match d.items with
  | some l => l
  | none =>
    match d.entries with
    | some l => l
    | none =>
      match (d.data.getD ⟨none, none⟩).entries with
      | some l => l
      | none => ((d.data.getD ⟨none, none⟩).items).getD []

/-- C6 counterexample: a response whose `items` path is present but holds an
empty array and whose `entries` path holds `[7]`.  The code's `or`-chain
skips the present-but-empty `items` and answers `[7]`, whereas the claimed
"first of these four that exists" rule would answer `[]`. -/
theorem c6_counterexample :
    extract_items (⟨some [], some [7], none⟩ : ApiData Nat) = [7] ∧
    extract_items_first_present (⟨some [], some [7], none⟩ : ApiData Nat) = [] ∧
    extract_items (⟨some [], some [7], none⟩ : ApiData Nat) ≠
      extract_items_first_present (⟨some [], some [7], none⟩ : ApiData Nat) := by
  refine ⟨rfl, rfl, by decide⟩

/-- Modelled from the amended wording: the first of the four paths that is
present *and non-empty* (truthy), else the empty list. -/
def extract_items_first_truthy {α : Type} (d : ApiData α) : List α :=
  let sub := d.data.getD ⟨none, none⟩
  match d.items with
  | some (x :: xs) => x :: xs
  | _ =>
    match d.entries with
    | some (x :: xs) => x :: xs
    | _ =>
      match sub.entries with
      | some (x :: xs) => x :: xs
      | _ =>
        match sub.items with
        | some (x :: xs) => x :: xs
        | _ => []

/-- C6 (amended): on a 200 response the extracted items array is the first of
the four paths `items`, `entries`, `data.entries`, `data.items` that is
present and non-empty (Python truthiness), and the empty array when no path
is present and non-empty. -/
theorem c6_first_truthy {α : Type} (d : ApiData α) :
    extract_items d = extract_items_first_truthy d := by
  obtain ⟨i, e, sub⟩ := d
  rcases sub with _ | ⟨se, si⟩
  · rcases i with _ | (_ | ⟨x, xs⟩) <;> rcases e with _ | (_ | ⟨y, ys⟩) <;> rfl
  · rcases i with _ | (_ | ⟨x, xs⟩) <;> rcases e with _ | (_ | ⟨y, ys⟩) <;>
      rcases se with _ | (_ | ⟨z, zs⟩) <;> rcases si with _ | (_ | ⟨w, ws⟩) <;> rfl

/-! ## KeyedCache (scraper.py, `get_cached_data` / `set_cached_data`, lines 26-52)

The filesystem is a map from cache paths to file states; a file either holds
the JSON serialization of a value or is corrupt (fails to parse, which
`get_cached_data` swallows into a miss).  `md5` of the key is modelled as an
injective filename encoding, and JSON round-tripping of a serializable value
is modelled as the identity, so `get_cache_path` is the identity on keys. -/

inductive FileState (α : Type) where
  | val (v : α)
  | corrupt
deriving DecidableEq

def USE_CACHE : Bool := true

def get_cache_path (url : String) : String := url

def get_cached_data {α : Type} (store : String → Option (FileState α))
    (url : String) : Option α :=
  if USE_CACHE = false then none
  else
    match store (get_cache_path url) with
    | some (.val v) => some v
    | some .corrupt => none
    | none => none

def set_cached_data {α : Type} (store : String → Option (FileState α))
    (url : String) (v : α) : String → Option (FileState α) :=
  if USE_CACHE = false then store
  else fun p => if p = get_cache_path url then some (.val v) else store p

def empty_store {α : Type} : String → Option (FileState α) := fun _ => none

def apply_puts {α : Type} (store : String → Option (FileState α)) :
    List (String × α) → (String → Option (FileState α))
  | [] => store
  | (k, v) :: rest => apply_puts (set_cached_data store k v) rest

/-- C7: cache round-trip.  `put k v` followed by `get k` yields `v` (for any
store state), and `get` on a key that no `put` ever touched (starting from
the empty cache directory) is absent. -/
theorem c7_cache_roundtrip :
    (∀ (α : Type) (store : String → Option (FileState α)) (k : String) (v : α),
      get_cached_data (set_cached_data store k v) k = some v) ∧
    (∀ (α : Type) (ops : List (String × α)) (k : String),
      k ∉ ops.map Prod.fst →
      get_cached_data (apply_puts empty_store ops) k = none) := by
  constructor
  · intro α store k v
    simp [get_cached_data, set_cached_data, USE_CACHE, get_cache_path]
  · intro α ops k hk
    have main : ∀ (ops : List (String × α)) (store : String → Option (FileState α)),
        k ∉ ops.map Prod.fst → store (get_cache_path k) = none →
        get_cached_data (apply_puts store ops) k = none := by
      intro ops
      induction ops with
      | nil =>
          intro store _ hs
          simp [apply_puts, get_cached_data, USE_CACHE, hs]
      | cons p rest ih =>
          intro store hmem hs
          obtain ⟨k', v⟩ := p
          simp only [List.map_cons, List.mem_cons] at hmem
          push_neg at hmem
          refine ih (set_cached_data store k' v) hmem.2 ?_
          simp only [set_cached_data, USE_CACHE, get_cache_path]
          simp only [if_neg (by decide : ¬(true = false))]
          rw [if_neg hmem.1]
          exact hs
    exact main ops empty_store hk rfl

/-- Witness for `c7_cache_roundtrip`: after putting under key `"a"` into an
empty cache, the untouched key `"b"` is still absent. -/
theorem c7_cache_roundtrip_witness :
    ("b" ∉ ([("a", 1)] : List (String × Nat)).map Prod.fst) ∧
    get_cached_data (apply_puts empty_store [("a", (1 : Nat))]) "b" = none :=
  ⟨by decide, c7_cache_roundtrip.2 Nat [("a", 1)] "b" (by decide)⟩

/-! ## ContentCleaner (scraper.py, `clean_description`, lines 55-78)

Strings are manipulated as `List Char`.  The regex character classes are
modelled by explicit predicates (`\p{Latin}`, `\p{Han}`, `\p{S}`, and the
non-ASCII class `[^\x00-\x7f]`); the length bound proved below does not
depend on the exact extent of these classes. -/

/-- Approximation of `\p{Latin}`: ASCII letters plus the Latin-1/extended
Latin blocks. -/
def isLatinChar (c : Char) : Bool :=
  (65 ≤ c.toNat && c.toNat ≤ 90) || (97 ≤ c.toNat && c.toNat ≤ 122) ||
    (0xC0 ≤ c.toNat && c.toNat ≤ 0x24F)

/-- Approximation of `\p{Han}`: the main CJK unified ideograph blocks. -/
def isHanChar (c : Char) : Bool :=
  (0x4E00 ≤ c.toNat && c.toNat ≤ 0x9FFF) || (0x3400 ≤ c.toNat && c.toNat ≤ 0x4DBF)

/-- Approximation of `\p{S}` (symbol category): the ASCII symbol characters
plus the currency/arrows/math/misc-symbol blocks. -/
def isSymbolChar (c : Char) : Bool :=
  c ∈ ['$', '+', '<', '=', '>', '^', '`', '|', '~'] ||
    (0xA2 ≤ c.toNat && c.toNat ≤ 0xA9) ||
    (0x20A0 ≤ c.toNat && c.toNat ≤ 0x20CF) ||
    (0x2190 ≤ c.toNat && c.toNat ≤ 0x2BFF)

/-- `\s` (whitespace), also used for `str.strip`. -/
def isWsChar (c : Char) : Bool := c.isWhitespace

/-- Index of the first occurrence of `needle` in `hay` (`str.find`):
`some i` when found, `none` when absent.  `i` accumulates the offset. -/
def find_substr (needle : List Char) : List Char → Nat → Option Nat
  | [], i => if needle = [] then some i else none
  | c :: t, i =>
    if needle.isPrefixOf (c :: t) then some i else find_substr needle t (i + 1)

/-- One step of the keyword-truncation loop:
`idx = text.lower().find(kw.lower()); if idx != -1: text = text[:idx]`. -/
def trunc_at_kw (cs : List Char) (kw : String) : List Char :=
  match find_substr (kw.data.map Char.toLower) (cs.map Char.toLower) 0 with
  | some i => cs.take i
  | none => cs

/-- The boilerplate markers, applied in order (scraper.py line 60). -/
def cleaner_keywords : List String := ["About", "Previous Events", "Contact"]

/-- `regex.sub(r"\p{S}+|[^\x00-\x7f]+", " ", text)`: each maximal run of
symbol characters, and each maximal run of non-ASCII characters starting
with a non-symbol, is replaced by a single space.  Fuel-based single pass
(fuel = remaining length) so the definition evaluates in the kernel. -/
def sub_sym_runs_aux : Nat → List Char → List Char
  | 0, _ => []
  | _, [] => []
  | fuel + 1, c :: cs =>
    if isSymbolChar c then
      ' ' :: sub_sym_runs_aux fuel (cs.dropWhile isSymbolChar)
    else if 127 < c.toNat then
      ' ' :: sub_sym_runs_aux fuel (cs.dropWhile (fun x => 127 < x.toNat))
    else
      c :: sub_sym_runs_aux fuel cs

def sub_sym_runs (cs : List Char) : List Char := sub_sym_runs_aux cs.length cs

/-- `regex.sub(r"\s+", " ", text)`: collapse each maximal whitespace run to a
single space. -/
def collapse_ws_aux : Nat → List Char → List Char
  | 0, _ => []
  | _, [] => []
  | fuel + 1, c :: cs =>
    if isWsChar c then ' ' :: collapse_ws_aux fuel (cs.dropWhile isWsChar)
    else c :: collapse_ws_aux fuel cs

def collapse_ws (cs : List Char) : List Char := collapse_ws_aux cs.length cs

/-- `str.strip()`. -/
def strip_ws (cs : List Char) : List Char :=
  ((cs.dropWhile isWsChar).reverse.dropWhile isWsChar).reverse

/-- The body of `clean_description` for truthy input (scraper.py lines 59-78):
keyword truncation, Han-stripping when Latin text is present, symbol and
non-ASCII run substitution, truncation to 1500 plus an ellipsis marker, and
whitespace normalization. -/
def clean_description_chars (cs : List Char) : List Char :=
  let t1 := cleaner_keywords.foldl trunc_at_kw cs
  let t2 := if t1.any isLatinChar then t1.filter (fun c => !isHanChar c) else t1
  let t3 := sub_sym_runs t2
  let t4 := if 1500 < t3.length then t3.take 1500 ++ ['.', '.', '.'] else t3
  strip_ws (collapse_ws t4)

/-- `clean_description(text)`; `none` models Python `None` and falls, with the
empty string, under `if not text: return ""`. -/
def clean_description : Option String → String
  | none => ""
  | some s => if s = "" then "" else ⟨clean_description_chars s.data⟩

theorem dropWhile_len_le {α : Type} (p : α → Bool) (l : List α) :
    (l.dropWhile p).length ≤ l.length :=
  (List.dropWhile_sublist p).length_le

theorem sub_sym_runs_aux_length_le :
    ∀ fuel cs, (sub_sym_runs_aux fuel cs).length ≤ cs.length := by
  intro fuel
  induction fuel with
  | zero => intro cs; simp [sub_sym_runs_aux]
  | succ n ih =>
      intro cs
      cases cs with
      | nil => simp [sub_sym_runs_aux]
      | cons c t =>
          simp only [sub_sym_runs_aux]
          by_cases h1 : isSymbolChar c = true
          · simp only [if_pos h1, List.length_cons]
            have h2 := ih (t.dropWhile isSymbolChar)
            have h3 := dropWhile_len_le isSymbolChar t
            omega
          · simp only [if_neg h1]
            by_cases h4 : 127 < c.toNat
            · simp only [if_pos h4, List.length_cons]
              have h2 := ih (t.dropWhile (fun x => 127 < x.toNat))
              have h3 := dropWhile_len_le (fun x => 127 < x.toNat) t
              omega
            · simp only [if_neg h4, List.length_cons]
              have h2 := ih t
              omega

theorem collapse_ws_aux_length_le :
    ∀ fuel cs, (collapse_ws_aux fuel cs).length ≤ cs.length := by
  intro fuel
  induction fuel with
  | zero => intro cs; simp [collapse_ws_aux]
  | succ n ih =>
      intro cs
      cases cs with
      | nil => simp [collapse_ws_aux]
      | cons c t =>
          simp only [collapse_ws_aux]
          by_cases h1 : isWsChar c = true
          · simp only [if_pos h1, List.length_cons]
            have h2 := ih (t.dropWhile isWsChar)
            have h3 := dropWhile_len_le isWsChar t
            omega
          · simp only [if_neg h1, List.length_cons]
            have h2 := ih t
            omega

theorem strip_ws_length_le (cs : List Char) : (strip_ws cs).length ≤ cs.length := by
  have h1 := dropWhile_len_le isWsChar cs
  have h2 := dropWhile_len_le isWsChar (cs.dropWhile isWsChar).reverse
  simp only [strip_ws, List.length_reverse] at *
  omega

/-- C8: for every input (including empty and absent), the cleaned description
has length at most 1503 = 1500 + the three-character ellipsis marker. -/
theorem c8_clean_length_bound (text : Option String) :
    (clean_description text).length ≤ 1503 := by
  cases text with
  | none => simp [clean_description]
  | some s =>
      by_cases hs : s = ""
      · simp [clean_description, hs]
      · have hlen : (clean_description (some s)).length =
            (clean_description_chars s.data).length := by
          simp only [clean_description, if_neg hs]
          rfl
        rw [hlen]
        have hfinal : ∀ t : List Char, t.length ≤ 1503 →
            (strip_ws (collapse_ws t)).length ≤ 1503 := by
          intro t ht
          have h5 := collapse_ws_aux_length_le t.length t
          have h6 := strip_ws_length_le (collapse_ws t)
          simp only [collapse_ws] at h6 ⊢
          omega
        have hbound : ∀ t3 : List Char,
            (if 1500 < t3.length then t3.take 1500 ++ ['.', '.', '.'] else t3).length ≤
              1503 := by
          intro t3
          by_cases h : 1500 < t3.length
          · simp only [if_pos h, List.length_append, List.length_take,
              List.length_cons, List.length_nil]
            omega
          · simp only [if_neg h]
            omega
        simp only [clean_description_chars]
        exact hfinal _ (hbound _)

/- `clean_description` is also exercised at the end of the file through the
per-event detail fetch, whose witness evaluates it on concrete input. -/

/-! ## EnrichmentEngine (llm_handler.py, `summarize_events`, lines 176-251)

Events are the record fields `summarize_events` reads and writes.  The JSON
values stored under the per-event keys `s`/`r`/`t` are modelled as null, a
string, or a list of strings (`SVal`); a per-event enrichment object
(a parsed JSON dictionary, as cached by `set_cached_summary` or returned
inside a batch result) is an association list `AiDict`.  Python dict
truthiness makes `none` and the empty dictionary falsy.  The enrichment
cache is a map from content hashes to parsed entries (`none` covering both
a missing and an unparseable file, exactly as `get_cached_summary` returns),
and the network is an oracle from a batch to the parsed batch result. -/

inductive SVal where
  | vnone
  | vstr (s : String)
  | vlist (xs : List String)
deriving DecidableEq

abbrev AiDict := List (String × SVal)

structure Event where
  id : String
  title : String
  description : String
  ai_summary : Option SVal := none
  top_reasons : Option SVal := none
  tags : Option SVal := none
deriving DecidableEq

/-- `get_event_hash` (llm_handler.py lines 34-37): the md5 hex digest of
`title + description` is modelled as an injective, deterministic, never-empty
encoding of the concatenated content. -/
def get_event_hash (e : Event) : String :=
  ⟨'#' :: (e.title ++ e.description).data⟩

/-- Python `d.get(k)` on a parsed JSON dictionary: `null` when absent. -/
def dict_get (d : AiDict) (k : String) : SVal :=
  (List.lookup k d).getD .vnone

/-- `cached = get_cached_summary(ehash); if cached:` — a hit needs a present
and truthy (non-empty) entry. -/
def cache_truthy (c : Option AiDict) : Bool :=
  match c with
  | some d => !d.isEmpty
  | none => false

/-- Application of an enrichment object to an event (lines 197-199/237-239):
`event["ai_summary"] = data.get("s")` etc. -/
def apply_ai_data (e : Event) (d : AiDict) : Event :=
  { e with
    ai_summary := some (dict_get d "s")
    top_reasons := some (dict_get d "r")
    tags := some (dict_get d "t") }

/-- The placeholder branch (lines 245-247). -/
def apply_placeholder (e : Event) : Event :=
  { e with
    ai_summary := some (.vstr "Synthesis incomplete.")
    top_reasons := some (.vlist ["N/A"])
    tags := some (.vlist []) }

/-- `[to_process[i:i+n] for i in range(0, len(to_process), n)]`, fuel-based
so that concrete runs reduce in the kernel (fuel = list length suffices,
as every step consumes at least one element). -/
def chunks_of_aux {α : Type} (n : Nat) : Nat → List α → List (List α)
  | 0, _ => []
  | _, [] => []
  | fuel + 1, x :: xs => (x :: xs.take (n - 1)) :: chunks_of_aux n fuel (xs.drop (n - 1))

def chunks_of {α : Type} (n : Nat) (l : List α) : List (List α) :=
  chunks_of_aux n l.length l

/-- `master_map.get(eid)` where `master_map` is built by `update`-ing the
batch results in order: the *last* binding for a key wins. -/
def master_get (m : List (String × AiDict)) (k : String) : Option AiDict :=
  List.lookup k m.reverse

def master_truthy (m : List (String × AiDict)) (k : String) : Bool :=
  match master_get m k with
  | some d => !d.isEmpty
  | none => false

/-- `id_to_hash.get(eid)`: the dict is filled once per event in input order
(lines 190-193), so the last event with a given id wins. -/
def id_to_hash_get (events : List Event) (eid : String) : Option String :=
  List.lookup eid (events.map (fun e => (e.id, get_event_hash e))).reverse

/-- The cache-miss partition (`to_process`, lines 190-201). -/
def to_process_of (cache : String → Option AiDict) (events : List Event) : List Event :=
  events.filter (fun e => !(cache_truthy (cache (get_event_hash e))))

/-- `batch_size = 15` (line 208); the merged `master_map` over all batch
results (lines 229-231). -/
def master_of (cache : String → Option AiDict)
    (oracle : List Event → List (String × AiDict)) (events : List Event) :
    List (String × AiDict) :=
  ((chunks_of 15 (to_process_of cache events)).map oracle).flatten

/-- Cache-hit application in the partition loop (lines 195-199). -/
def hit_apply (cache : String → Option AiDict) (e : Event) : Event :=
  match cache (get_event_hash e) with
  | some d => if d.isEmpty then e else apply_ai_data e d
  | none => e

/-- The merge loop for one dispatched event (lines 233-247):
`ai_data = master_map.get(eid); if ai_data:` — a present but falsy (empty)
object takes the placeholder branch. -/
def merge_one (m : List (String × AiDict)) (e : Event) : Event :=
  match master_get m e.id with
  | some d => if d.isEmpty then apply_placeholder e else apply_ai_data e d
  | none => apply_placeholder e

structure EnrichResult where
  events : List Event
  writes : List (String × AiDict)
  numBatches : Nat
deriving DecidableEq

/-- `summarize_events(events)`.  The returned record carries the mutated
event list, the `set_cached_summary` writes (hash key, enrichment object) in
order, and the number of dispatched batch tasks (each of which performs at
least one network call; zero batches means no network activity). -/
def summarize_events (cache : String → Option AiDict)
    (oracle : List Event → List (String × AiDict)) (events : List Event) :
    EnrichResult :=
  if events.isEmpty then ⟨events, [], 0⟩
  else
    let toProcess := to_process_of cache events
    if toProcess.isEmpty then ⟨events.map (hit_apply cache), [], 0⟩
    else
      let m := master_of cache oracle events
      let finalEvents := events.map (fun e =>
        if cache_truthy (cache (get_event_hash e)) then hit_apply cache e
        else merge_one m e)
      let writes := toProcess.filterMap (fun e =>
        match master_get m e.id with
        | some d =>
          if d.isEmpty then none
          else
            match id_to_hash_get events e.id with
            | some h => if h = "" then none else some (h, d)
            | none => none
        | none => none)
      ⟨finalEvents, writes, (chunks_of 15 toProcess).length⟩

/-- A later run's cache: the first run's writes applied over the old cache
(per-key file overwrite; the last write to a key wins). -/
def cache_after (writes : List (String × AiDict))
    (cache : String → Option AiDict) : String → Option AiDict :=
  fun k =>
    match List.lookup k writes.reverse with
    | some d => some d
    | none => cache k

theorem get_event_hash_apply_ai (e : Event) (d : AiDict) :
    get_event_hash (apply_ai_data e d) = get_event_hash e := rfl

theorem get_event_hash_ne_empty (e : Event) : get_event_hash e ≠ "" := by
  intro h
  have := congrArg String.data h
  simp [get_event_hash] at this

theorem apply_ai_data_idem (e : Event) (d : AiDict) :
    apply_ai_data (apply_ai_data e d) d = apply_ai_data e d := rfl

/-- If every event is a truthy cache hit, `to_process` is empty. -/
theorem to_process_nil (cache : String → Option AiDict) (events : List Event)
    (h : ∀ e ∈ events, cache_truthy (cache (get_event_hash e)) = true) :
    to_process_of cache events = [] := by
  simp only [to_process_of, List.filter_eq_nil_iff]
  intro e he
  simp [h e he]

/-- On an all-hit event list, `summarize_events` dispatches no batch and
applies the cached object to every event. -/
theorem summarize_events_all_hits (cache : String → Option AiDict)
    (oracle : List Event → List (String × AiDict)) (events : List Event)
    (h : ∀ e ∈ events, cache_truthy (cache (get_event_hash e)) = true) :
    summarize_events cache oracle events =
      ⟨events.map (fun e => apply_ai_data e ((cache (get_event_hash e)).getD [])), [], 0⟩ := by
  have htp := to_process_nil cache events h
  have hmap : events.map (hit_apply cache) =
      events.map (fun e => apply_ai_data e ((cache (get_event_hash e)).getD [])) := by
    apply List.map_congr_left
    intro e he
    have := h e he
    unfold hit_apply
    cases hc : cache (get_event_hash e) with
    | none => rw [hc] at this; simp [cache_truthy] at this
    | some d =>
        rw [hc] at this
        simp only [cache_truthy, Bool.not_eq_true'] at this
        simp [this]
  cases events with
  | nil => simp [summarize_events]
  | cons e es =>
      rw [summarize_events]
      simp only [List.isEmpty_cons, htp, List.isEmpty_nil]
      rw [hmap]
      simp

/-- C2: with every event's content hash present (and truthy) in the
enrichment cache, enrichment dispatches zero batches (hence performs no
network call) and sets each event's `ai_summary`/`top_reasons`/`tags` to the
cached `s`/`r`/`t` values; running enrichment again on the result, with any
oracle at all, again dispatches zero batches and returns the same events. -/
theorem c2_cache_idempotence (cache : String → Option AiDict)
    (oracle oracle2 : List Event → List (String × AiDict)) (events : List Event)
    (h : ∀ e ∈ events, cache_truthy (cache (get_event_hash e)) = true) :
    (summarize_events cache oracle events).numBatches = 0 ∧
    (summarize_events cache oracle events).events =
      events.map (fun e => apply_ai_data e ((cache (get_event_hash e)).getD [])) ∧
    (summarize_events cache oracle2 (summarize_events cache oracle events).events).numBatches = 0 ∧
    (summarize_events cache oracle2 (summarize_events cache oracle events).events).events =
      (summarize_events cache oracle events).events := by
  have h1 := summarize_events_all_hits cache oracle events h
  have hev : (summarize_events cache oracle events).events =
      events.map (fun e => apply_ai_data e ((cache (get_event_hash e)).getD [])) := by
    rw [h1]
  have h2 : ∀ e' ∈ (summarize_events cache oracle events).events,
      cache_truthy (cache (get_event_hash e')) = true := by
    rw [hev]
    intro e' he'
    rw [List.mem_map] at he'
    obtain ⟨e, he, rfl⟩ := he'
    rw [get_event_hash_apply_ai]
    exact h e he
  have h3 := summarize_events_all_hits cache oracle2 _ h2
  refine ⟨by rw [h1], hev, by rw [h3], ?_⟩
  rw [h3]
  conv_lhs => rw [hev]
  rw [hev]
  rw [List.map_map]
  apply List.map_congr_left
  intro e he
  simp only [Function.comp_apply, get_event_hash_apply_ai, apply_ai_data_idem]

def c2_cache : String → Option AiDict :=
  fun h => if h = "#td" then some [("s", .vlist ["a", "b", "c"]), ("r", .vlist ["r1"]),
    ("t", .vlist ["x"])] else none

def c2_events : List Event := [{ id := "e1", title := "t", description := "d" }]

/-- Witness for `c2_cache_idempotence` on a one-event list whose hash is
cached. -/
theorem c2_cache_idempotence_witness :
    (∀ e ∈ c2_events, cache_truthy (c2_cache (get_event_hash e)) = true) ∧
    ((summarize_events c2_cache (fun _ => []) c2_events).numBatches = 0 ∧
     (summarize_events c2_cache (fun _ => []) c2_events).events =
       c2_events.map (fun e => apply_ai_data e ((c2_cache (get_event_hash e)).getD [])) ∧
     (summarize_events c2_cache (fun _ => [])
        (summarize_events c2_cache (fun _ => []) c2_events).events).numBatches = 0 ∧
     (summarize_events c2_cache (fun _ => [])
        (summarize_events c2_cache (fun _ => []) c2_events).events).events =
       (summarize_events c2_cache (fun _ => []) c2_events).events) :=
  ⟨by decide, c2_cache_idempotence c2_cache (fun _ => []) (fun _ => []) c2_events (by decide)⟩

def default_event : Event := { id := "", title := "", description := "" }

/-- On a non-empty dispatch, `summarize_events` is the merge of the batch
results over the input list together with the cache writes. -/
theorem summarize_events_dispatch (cache : String → Option AiDict)
    (oracle : List Event → List (String × AiDict)) (events : List Event)
    (hevne : events ≠ []) (htpne : to_process_of cache events ≠ []) :
    summarize_events cache oracle events =
      ⟨events.map (fun e =>
          if cache_truthy (cache (get_event_hash e)) then hit_apply cache e
          else merge_one (master_of cache oracle events) e),
        (to_process_of cache events).filterMap (fun e =>
          match master_get (master_of cache oracle events) e.id with
          | some d =>
            if d.isEmpty then none
            else
              match id_to_hash_get events e.id with
              | some h => if h = "" then none else some (h, d)
              | none => none
          | none => none),
        (chunks_of 15 (to_process_of cache events)).length⟩ := by
  rw [summarize_events]
  rw [if_neg (by simpa [List.isEmpty_iff] using hevne)]
  rw [if_neg (by simpa [List.isEmpty_iff] using htpne)]

theorem getD_map_event (f : Event → Event) (l : List Event) (i : Nat)
    (hi : i < l.length) :
    (l.map f).getD i default_event = f (l.getD i default_event) := by
  rw [List.getD_eq_getElem _ _ hi, List.getD_eq_getElem _ _ (by simpa using hi),
    List.getElem_map]

/-- Case analysis on the merge step for one dispatched event. -/
theorem merge_one_cases (m : List (String × AiDict)) (ev : Event) :
    (merge_one m ev).ai_summary.isSome = true ∧
    (merge_one m ev).top_reasons.isSome = true ∧
    (merge_one m ev).tags.isSome = true ∧
    (master_truthy m ev.id = true →
      merge_one m ev = apply_ai_data ev ((master_get m ev.id).getD [])) ∧
    (master_truthy m ev.id = false →
      (merge_one m ev).ai_summary = some (.vstr "Synthesis incomplete.") ∧
      (merge_one m ev).top_reasons = some (.vlist ["N/A"]) ∧
      (merge_one m ev).tags = some (.vlist [])) := by
  rcases hm : master_get m ev.id with _ | d
  · simp [merge_one, hm, master_truthy, apply_placeholder]
  · by_cases hd : d.isEmpty
    · simp [merge_one, hm, hd, master_truthy, apply_placeholder]
    · simp [merge_one, hm, hd, master_truthy, apply_ai_data]

def c4_ev1 : Event := { id := "e1", title := "a", description := "b" }
def c4_ev2 : Event := { id := "e2", title := "c", description := "d" }
def c4_oracle : List Event → List (String × AiDict) :=
  fun _ => [("e1", []), ("e2", [("s", .vlist ["onlyone"])])]

/-- C4 counterexample: event `e1`'s id appears in the merged batch results
(bound to an empty object, which is falsy), yet `e1` receives the
placeholder, not "those values"; and dispatched event `e2` receives a
populated `ai_summary` holding a single string, not a sequence of exactly
3 strings — the merge applies whatever the backend returned. -/
theorem c4_counterexample :
    (master_get (master_of (fun _ => none) c4_oracle [c4_ev1, c4_ev2]) "e1").isSome = true ∧
    ((summarize_events (fun _ => none) c4_oracle [c4_ev1, c4_ev2]).events.getD 0
        default_event).ai_summary = some (.vstr "Synthesis incomplete.") ∧
    ((summarize_events (fun _ => none) c4_oracle [c4_ev1, c4_ev2]).events.getD 1
        default_event).ai_summary = some (.vlist ["onlyone"]) ∧
    (["onlyone"] : List String).length = 1 := by
  decide

/-- C4 (amended): after enrichment, every dispatched (cache-miss) event has
`ai_summary`, `top_reasons` and `tags` set: an event whose id maps to a
truthy (non-empty) object in the merged batch results receives that object's
`s`/`r`/`t` values — whatever sequence the backend returned, with no
3-element length check — and an event whose id is absent from the merged
results, or maps to a falsy (empty) object, receives the fixed placeholder
summary "Synthesis incomplete.", the single placeholder reason, and the
empty tag set. -/
theorem c4_merge_placeholder (cache : String → Option AiDict)
    (oracle : List Event → List (String × AiDict)) (events : List Event)
    (i : Nat) (hi : i < events.length)
    (hmiss : cache_truthy (cache (get_event_hash (events.getD i default_event))) = false) :
    ((summarize_events cache oracle events).events.length = events.length) ∧
    ((summarize_events cache oracle events).events.getD i
        default_event).ai_summary.isSome = true ∧
    ((summarize_events cache oracle events).events.getD i
        default_event).top_reasons.isSome = true ∧
    ((summarize_events cache oracle events).events.getD i
        default_event).tags.isSome = true ∧
    (master_truthy (master_of cache oracle events) (events.getD i default_event).id = true →
      (summarize_events cache oracle events).events.getD i default_event =
        apply_ai_data (events.getD i default_event)
          ((master_get (master_of cache oracle events)
            (events.getD i default_event).id).getD [])) ∧
    (master_truthy (master_of cache oracle events) (events.getD i default_event).id = false →
      ((summarize_events cache oracle events).events.getD i default_event).ai_summary =
          some (.vstr "Synthesis incomplete.") ∧
      ((summarize_events cache oracle events).events.getD i default_event).top_reasons =
          some (.vlist ["N/A"]) ∧
      ((summarize_events cache oracle events).events.getD i default_event).tags =
          some (.vlist [])) := by
  have hmem : events.getD i default_event ∈ events := by
    rw [List.getD_eq_getElem _ _ hi]
    exact List.getElem_mem hi
  have htpmem : events.getD i default_event ∈ to_process_of cache events := by
    rw [to_process_of, List.mem_filter]
    refine ⟨hmem, ?_⟩
    simp only [hmiss]
    rfl
  have hevne : events ≠ [] := by
    intro h0
    rw [h0] at hmem
    exact absurd hmem (List.not_mem_nil _)
  have htpne : to_process_of cache events ≠ [] := by
    intro h0
    rw [h0] at htpmem
    exact absurd htpmem (List.not_mem_nil _)
  have hr := summarize_events_dispatch cache oracle events hevne htpne
  have klen : (summarize_events cache oracle events).events.length = events.length := by
    rw [hr]
    exact List.length_map _ _
  have key : (summarize_events cache oracle events).events.getD i default_event =
      merge_one (master_of cache oracle events) (events.getD i default_event) := by
    rw [hr]
    show (events.map _).getD i default_event = _
    rw [getD_map_event _ events i hi]
    rw [if_neg (by rw [hmiss]; exact Bool.false_ne_true)]
  rw [key]
  obtain ⟨h1, h2, h3, h4, h5⟩ := merge_one_cases (master_of cache oracle events)
    (events.getD i default_event)
  exact ⟨klen, h1, h2, h3, h4, h5⟩

/-- Witness for `c4_merge_placeholder`: a two-event all-miss run, checked at
index 0 (placeholder case) via the theorem. -/
theorem c4_merge_placeholder_witness :
    (0 < ([c4_ev1, c4_ev2] : List Event).length) ∧
    cache_truthy ((fun _ => none)
      (get_event_hash (([c4_ev1, c4_ev2] : List Event).getD 0 default_event))) = false ∧
    (((summarize_events (fun _ => none) c4_oracle [c4_ev1, c4_ev2]).events.length =
        ([c4_ev1, c4_ev2] : List Event).length) ∧
     ((summarize_events (fun _ => none) c4_oracle [c4_ev1, c4_ev2]).events.getD 0
         default_event).ai_summary.isSome = true ∧
     ((summarize_events (fun _ => none) c4_oracle [c4_ev1, c4_ev2]).events.getD 0
         default_event).top_reasons.isSome = true ∧
     ((summarize_events (fun _ => none) c4_oracle [c4_ev1, c4_ev2]).events.getD 0
         default_event).tags.isSome = true ∧
     (master_truthy (master_of (fun _ => none) c4_oracle [c4_ev1, c4_ev2])
         (([c4_ev1, c4_ev2] : List Event).getD 0 default_event).id = true →
       (summarize_events (fun _ => none) c4_oracle [c4_ev1, c4_ev2]).events.getD 0
           default_event =
         apply_ai_data (([c4_ev1, c4_ev2] : List Event).getD 0 default_event)
           ((master_get (master_of (fun _ => none) c4_oracle [c4_ev1, c4_ev2])
             (([c4_ev1, c4_ev2] : List Event).getD 0 default_event).id).getD [])) ∧
     (master_truthy (master_of (fun _ => none) c4_oracle [c4_ev1, c4_ev2])
         (([c4_ev1, c4_ev2] : List Event).getD 0 default_event).id = false →
       ((summarize_events (fun _ => none) c4_oracle [c4_ev1, c4_ev2]).events.getD 0
           default_event).ai_summary = some (.vstr "Synthesis incomplete.") ∧
       ((summarize_events (fun _ => none) c4_oracle [c4_ev1, c4_ev2]).events.getD 0
           default_event).top_reasons = some (.vlist ["N/A"]) ∧
       ((summarize_events (fun _ => none) c4_oracle [c4_ev1, c4_ev2]).events.getD 0
           default_event).tags = some (.vlist []))) :=
  ⟨by decide, by decide,
    c4_merge_placeholder (fun _ => none) c4_oracle [c4_ev1, c4_ev2] 0
      (by decide) (by decide)⟩

theorem lookup_some_val {β : Type} (k : String) (b : β) :
    ∀ l : List (String × β), List.lookup k l = some b → ∃ p ∈ l, p.2 = b := by
  intro l
  induction l with
  | nil => intro h; simp [List.lookup] at h
  | cons p rest ih =>
      obtain ⟨k', b'⟩ := p
      intro h
      rw [List.lookup] at h
      by_cases hk : k = k'
      · subst hk
        simp only [beq_self_eq_true] at h
        injection h with hb
        exact ⟨(k, b'), List.mem_cons_self _ _, hb⟩
      · rw [show (k == k') = false from beq_eq_false_iff_ne.mpr hk] at h
        obtain ⟨q, hq, hqb⟩ := ih h
        exact ⟨q, List.mem_cons_of_mem _ hq, hqb⟩

theorem lookup_none_of_all_ne {β : Type} (k : String) :
    ∀ l : List (String × β), (∀ p ∈ l, p.1 ≠ k) → List.lookup k l = none := by
  intro l
  induction l with
  | nil => intro _; rfl
  | cons p rest ih =>
      obtain ⟨k', b'⟩ := p
      intro h
      rw [List.lookup]
      have hk : k ≠ k' := fun he => h (k', b') (List.mem_cons_self _ _) he.symm
      rw [show (k == k') = false from beq_eq_false_iff_ne.mpr hk]
      exact ih (fun q hq => h q (List.mem_cons_of_mem _ hq))

/-- Every value produced by `id_to_hash_get` is an event hash, hence never
the empty string (an md5 hex digest is non-empty). -/
theorem id_to_hash_ne_empty (events : List Event) (k h : String)
    (hl : id_to_hash_get events k = some h) : h ≠ "" := by
  obtain ⟨p, hp, hpv⟩ := lookup_some_val k h _ hl
  rw [List.mem_reverse, List.mem_map] at hp
  obtain ⟨e, _, rfl⟩ := hp
  rw [← hpv]
  exact get_event_hash_ne_empty e

/-- The cache writes of `summarize_events`, in all control-flow branches. -/
theorem summarize_events_writes_eq (cache : String → Option AiDict)
    (oracle : List Event → List (String × AiDict)) (events : List Event) :
    (summarize_events cache oracle events).writes =
      (to_process_of cache events).filterMap (fun e =>
        match master_get (master_of cache oracle events) e.id with
        | some d =>
          if d.isEmpty then none
          else
            match id_to_hash_get events e.id with
            | some h => if h = "" then none else some (h, d)
            | none => none
        | none => none) := by
  by_cases hev : events = []
  · subst hev
    simp [summarize_events, to_process_of]
  · by_cases htp : to_process_of cache events = []
    · rw [summarize_events, if_neg (by simpa [List.isEmpty_iff] using hev)]
      simp only [htp, List.isEmpty_nil, if_true]
      simp [htp]
    · rw [summarize_events_dispatch cache oracle events hev htp]

def c9_oracle : List Event → List (String × AiDict) := fun _ => [("e1", [])]

/-- C9 counterexample: dispatched event `e1`'s id appears in the merged
batch results (bound to an empty, falsy object); the event receives the
placeholder and *no* cache entry is written — so "written iff the id appears
in the merged batch results" fails in the forward direction. -/
theorem c9_counterexample :
    master_get (master_of (fun _ => none) c9_oracle [c4_ev1]) "e1" = some [] ∧
    (summarize_events (fun _ => none) c9_oracle [c4_ev1]).writes = [] ∧
    ((summarize_events (fun _ => none) c9_oracle [c4_ev1]).events.getD 0
        default_event).ai_summary = some (.vstr "Synthesis incomplete.") := by
  decide

/-- C9 (amended): an enrichment-cache entry is written for a dispatched
event iff that event's id maps to a truthy (non-empty) object in the merged
batch results, the written entry being that object keyed by the event's
content hash; every written entry is non-empty (the placeholder is never
persisted, so the cache never gains a placeholder value); and a dispatched
event whose id is absent or maps to a falsy object stays a cache miss on a
later run with the same title and description — it is re-dispatched —
provided no same-hash event was successfully enriched in this run. -/
theorem c9_cache_write_iff (cache : String → Option AiDict)
    (oracle : List Event → List (String × AiDict)) (events : List Event) :
    (∀ hsh d, (hsh, d) ∈ (summarize_events cache oracle events).writes ↔
      (∃ e ∈ to_process_of cache events,
        master_get (master_of cache oracle events) e.id = some d ∧ d ≠ [] ∧
        id_to_hash_get events e.id = some hsh)) ∧
    (∀ w ∈ (summarize_events cache oracle events).writes, w.2 ≠ ([] : AiDict)) ∧
    (∀ e ∈ to_process_of cache events,
      master_truthy (master_of cache oracle events) e.id = false →
      (∀ w ∈ (summarize_events cache oracle events).writes, w.1 ≠ get_event_hash e) →
      cache_truthy (cache_after (summarize_events cache oracle events).writes cache
        (get_event_hash e)) = false) := by
  have hw := summarize_events_writes_eq cache oracle events
  have hiff : ∀ hsh d, (hsh, d) ∈ (summarize_events cache oracle events).writes ↔
      (∃ e ∈ to_process_of cache events,
        master_get (master_of cache oracle events) e.id = some d ∧ d ≠ [] ∧
        id_to_hash_get events e.id = some hsh) := by
    intro hsh d
    rw [hw, List.mem_filterMap]
    constructor
    · rintro ⟨a, ha, hfa⟩
      rcases hma : master_get (master_of cache oracle events) a.id with _ | d'
      · simp [hma] at hfa
      · by_cases hd' : d'.isEmpty
        · simp [hma, hd'] at hfa
        · rcases hha : id_to_hash_get events a.id with _ | h'
          · simp [hma, hd', hha] at hfa
          · by_cases hh : h' = ""
            · simp [hma, hd', hha, hh] at hfa
            · simp [hma, hd', hha, hh] at hfa
              obtain ⟨rfl, rfl⟩ := hfa
              exact ⟨a, ha, hma, fun hnil => hd' (by simp [hnil]), hha⟩
    · rintro ⟨e, he, hme, hdne, hhe⟩
      refine ⟨e, he, ?_⟩
      have hd_ne : ¬(d.isEmpty = true) := fun hemp => hdne (List.isEmpty_iff.mp hemp)
      simp [hme, hd_ne, hhe, id_to_hash_ne_empty events e.id hsh hhe]
  refine ⟨hiff, ?_, ?_⟩
  · rintro ⟨w1, w2⟩ hmem heq
    obtain ⟨e, -, -, hdne, -⟩ := (hiff w1 w2).mp hmem
    exact hdne heq
  · intro e he _ hwne
    have hnone : List.lookup (get_event_hash e)
        (summarize_events cache oracle events).writes.reverse = none := by
      apply lookup_none_of_all_ne
      intro p hp
      exact hwne p (List.mem_reverse.mp hp)
    show cache_truthy (match List.lookup (get_event_hash e)
        (summarize_events cache oracle events).writes.reverse with
      | some d => some d
      | none => cache (get_event_hash e)) = false
    rw [hnone]
    rw [to_process_of] at he
    have := (List.mem_filter.mp he).2
    simpa using this

/-- Witness for `c9_cache_write_iff`: its no-placeholder-write clause on a
concrete falsy-result run. -/
theorem c9_cache_write_iff_witness :
    ∀ w ∈ (summarize_events (fun _ => none) c9_oracle [c4_ev1]).writes,
      w.2 ≠ ([] : AiDict) :=
  (c9_cache_write_iff (fun _ => none) c9_oracle [c4_ev1]).2.1

/-! ## Candidate normalization (scraper.py, `prepare_event`, lines 262-294)

A raw item is a JSON dictionary.  The event-level fields the code reads are
collected in `RawEvent` (each `Option String`, `none` for an absent key).
The item-level `event` / `api_event` keys may hold a dictionary, or a truthy
non-dictionary value (which `isinstance(ev, dict)` then rejects); an absent
*or falsy* value (Python `or`) is folded into `none`.  When both are `none`
the item itself serves as the event record (`self` collects the item's own
event-level keys).  Python's `hash()` of the start string is an opaque
deterministic function, passed as the `pyhash` parameter. -/

structure RawEvent where
  api_id : Option String
  id : Option String
  name : Option String
  title : Option String
  start_at : Option String
  start_date : Option String
  url : Option String
  url_path : Option String
deriving DecidableEq

inductive EvVal where
  | dict (r : RawEvent)
  | nondict
deriving DecidableEq

structure RawItem where
  platform : Option String
  event : Option EvVal
  api_event : Option EvVal
  self : RawEvent
deriving DecidableEq

/-- Normalized candidate (the dict returned by `prepare_event`). -/
structure Prepped where
  eid : String
  name : String
  full_url : String
  ev : RawEvent
  item : RawItem
deriving DecidableEq

/-- Python `a or b` on a string-valued `.get`: `None` and `""` are falsy. -/
def pyOrStr (a : Option String) (b : String) : String :=
  match a with
  | some s => if s = "" then b else s
  | none => b

/-- Python `needle in hay` on strings. -/
def is_substr (needle hay : String) : Bool :=
  (find_substr needle.data hay.data 0).isSome

/-- `str.lower()`, modelled per character (ASCII case folding). -/
def str_lower (s : String) : String := ⟨s.data.map Char.toLower⟩

/-- `ev = item.get("event") or item.get("api_event") or item` (line 272). -/
def chosen_ev_val (item : RawItem) : EvVal :=
  match item.event with
  | some v => v
  | none =>
    match item.api_event with
    | some v => v
    | none => .dict item.self

/-- The chosen event record, when it is a dictionary. -/
def chosen_ev_opt (item : RawItem) : Option RawEvent :=
  match chosen_ev_val item with
  | .dict r => some r
  | .nondict => none

/-- `prepare_event(item)` (lines 262-294).  `calMode` is the truthiness of
`cal_id`; `url` is the landing-page URL captured by the closure. -/
def prepare_event (pyhash : String → Int) (calMode : Bool) (target_date url : String)
    (item : RawItem) : Option Prepped :=
  if calMode = true ∧ str_lower (item.platform.getD "") ≠ "luma" then none
  else
    match chosen_ev_val item with
    | .nondict => none
    | .dict ev =>
      let start_at_str := pyOrStr ev.start_at (pyOrStr ev.start_date "")
      if calMode = false ∧ is_substr target_date start_at_str = false then none
      else
        let eid := pyOrStr ev.api_id
          (pyOrStr ev.id ("evt-" ++ toString (pyhash start_at_str)))
        let name := pyOrStr ev.name (pyOrStr ev.title "Untitled Event")
        let path := pyOrStr ev.url (pyOrStr ev.url_path "")
        let full_url := if path ≠ "" then "https://lu.ma/" ++ path else url
        some ⟨eid, name, full_url, ev, item⟩

/-- `prepped_events` (lines 296-298). -/
def prep_events (pyhash : String → Int) (calMode : Bool) (target_date url : String)
    (items : List RawItem) : List Prepped :=
  items.filterMap (prepare_event pyhash calMode target_date url)

/-- The `id` fields of the records the stage hands to enrichment:
`fetch_with_results` sets `"id": str(event_info["eid"])` positionally
(line 313), so the stage's ids are exactly the prepped `eid`s. -/
def resolved_ids (pyhash : String → Int) (calMode : Bool) (target_date url : String)
    (items : List RawItem) : List String :=
  (prep_events pyhash calMode target_date url items).map (fun p => p.eid)

def c3_raw1 : RawEvent :=
  { api_id := none, id := none, name := some "Event A", title := none,
    start_at := some "2025-03-01T09:00:00", start_date := none,
    url := none, url_path := none }

def c3_raw2 : RawEvent :=
  { api_id := none, id := none, name := some "Event B", title := none,
    start_at := some "2025-03-01T09:00:00", start_date := none,
    url := none, url_path := none }

def c3_item1 : RawItem :=
  { platform := some "luma", event := none, api_event := none, self := c3_raw1 }

def c3_item2 : RawItem :=
  { platform := some "luma", event := none, api_event := none, self := c3_raw2 }

/-- C3 counterexample: two distinct items lacking `api_id`/`id` that share a
start string receive the same fallback id `evt-{hash(start)}`, so the ids of
one run's records are not pairwise distinct. -/
theorem c3_counterexample :
    c3_item1 ≠ c3_item2 ∧
    resolved_ids (fun _ => 0) true "2025-03-01" "https://lu.ma/hk"
      [c3_item1, c3_item2] = ["evt-0", "evt-0"] ∧
    ¬ (resolved_ids (fun _ => 0) true "2025-03-01" "https://lu.ma/hk"
      [c3_item1, c3_item2]).Nodup := by
  refine ⟨by decide, by decide, by decide⟩

theorem prepare_event_eid_api (pyhash : String → Int) (calMode : Bool)
    (td url : String) (item : RawItem) (p : Prepped) (r : RawEvent) (a : String)
    (hp : prepare_event pyhash calMode td url item = some p)
    (hr : chosen_ev_opt item = some r)
    (ha : r.api_id = some a) (hane : a ≠ "") : p.eid = a := by
  have hv : chosen_ev_val item = .dict r := by
    unfold chosen_ev_opt at hr
    rcases hv' : chosen_ev_val item with r' | _
    · rw [hv'] at hr
      simp only [Option.some.injEq] at hr
      rw [hr]
    · rw [hv'] at hr
      simp at hr
  unfold prepare_event at hp
  by_cases hplat : calMode = true ∧ str_lower (item.platform.getD "") ≠ "luma"
  · rw [if_pos hplat] at hp
    exact absurd hp (by simp)
  · rw [if_neg hplat] at hp
    rw [hv] at hp
    by_cases hdate : calMode = false ∧
        is_substr td (pyOrStr r.start_at (pyOrStr r.start_date "")) = false
    · simp only [if_pos hdate] at hp
      exact absurd hp (by simp)
    · simp only [if_neg hdate, Option.some.injEq] at hp
      rw [← hp]
      simp [pyOrStr, ha, hane]

/-- C3 (amended): `prepare_event` ids are not guaranteed pairwise distinct —
two id-less events with equal start strings collide on the fallback — but
two candidates whose chosen event records carry truthy, distinct source
`api_id`s do receive distinct ids. -/
theorem c3_distinct_api_ids (pyhash : String → Int) (calMode : Bool)
    (td url : String) (i1 i2 : RawItem) (p1 p2 : Prepped) (r1 r2 : RawEvent)
    (a1 a2 : String)
    (h1 : prepare_event pyhash calMode td url i1 = some p1)
    (h2 : prepare_event pyhash calMode td url i2 = some p2)
    (hr1 : chosen_ev_opt i1 = some r1) (hr2 : chosen_ev_opt i2 = some r2)
    (ha1 : r1.api_id = some a1) (ha2 : r2.api_id = some a2)
    (hne1 : a1 ≠ "") (hne2 : a2 ≠ "") (hne : a1 ≠ a2) :
    p1.eid ≠ p2.eid := by
  rw [prepare_event_eid_api pyhash calMode td url i1 p1 r1 a1 h1 hr1 ha1 hne1,
    prepare_event_eid_api pyhash calMode td url i2 p2 r2 a2 h2 hr2 ha2 hne2]
  exact hne

def c3_rawA : RawEvent :=
  { api_id := some "idA", id := none, name := none, title := none,
    start_at := some "2025-03-01T09:00", start_date := none,
    url := none, url_path := none }

def c3_rawB : RawEvent :=
  { api_id := some "idB", id := none, name := none, title := none,
    start_at := some "2025-03-01T09:00", start_date := none,
    url := none, url_path := none }

def c3_wit1 : RawItem :=
  { platform := some "luma", event := none, api_event := none, self := c3_rawA }

def c3_wit2 : RawItem :=
  { platform := some "luma", event := none, api_event := none, self := c3_rawB }

/-- Witness for `c3_distinct_api_ids` on two items with distinct `api_id`s. -/
theorem c3_distinct_api_ids_witness :
    (prepare_event (fun _ => 0) true "2025-03-01" "https://lu.ma/hk" c3_wit1 =
      some ⟨"idA", "Untitled Event", "https://lu.ma/hk", c3_wit1.self, c3_wit1⟩) ∧
    (prepare_event (fun _ => 0) true "2025-03-01" "https://lu.ma/hk" c3_wit2 =
      some ⟨"idB", "Untitled Event", "https://lu.ma/hk", c3_wit2.self, c3_wit2⟩) ∧
    (⟨"idA", "Untitled Event", "https://lu.ma/hk", c3_wit1.self, c3_wit1⟩ : Prepped).eid ≠
      (⟨"idB", "Untitled Event", "https://lu.ma/hk", c3_wit2.self, c3_wit2⟩ : Prepped).eid :=
  ⟨by decide, by decide,
    c3_distinct_api_ids (fun _ => 0) true "2025-03-01" "https://lu.ma/hk"
      c3_wit1 c3_wit2 _ _ c3_wit1.self c3_wit2.self "idA" "idB"
      (by decide) (by decide) (by decide) (by decide) (by decide) (by decide)
      (by decide) (by decide) (by decide)⟩

def c10_raw : RawEvent :=
  { api_id := some "x", id := none, name := none, title := none,
    start_at := none, start_date := none, url := none, url_path := none }

def c10_item : RawItem :=
  { platform := some "Luma", event := some .nondict, api_event := none, self := c10_raw }

/-- C10 counterexample: a dict item whose platform lowercases to "luma" but
whose `event` key holds a truthy non-dictionary value yields no candidate in
API mode (`isinstance(ev, dict)` fails), refuting "every dict item whose
platform field lowercases to luma yields a candidate". -/
theorem c10_counterexample :
    str_lower (c10_item.platform.getD "") = "luma" ∧
    prepare_event (fun _ => 0) true "2025-03-01" "https://lu.ma/hk" c10_item = none := by
  refine ⟨by decide, by decide⟩

/-- C10 (amended): in API mode no local date filter is applied — every dict
item whose platform lowercases to "luma" and whose chosen event value is a
dictionary yields a candidate, whatever its start-date string — while in
non-API mode an item whose chosen start string does not contain the target
date as a substring yields no candidate. -/
theorem c10_api_no_date_filter :
    (∀ (pyhash : String → Int) (td url : String) (item : RawItem) (r : RawEvent),
      str_lower (item.platform.getD "") = "luma" →
      chosen_ev_opt item = some r →
      (prepare_event pyhash true td url item).isSome = true) ∧
    (∀ (pyhash : String → Int) (td url : String) (item : RawItem) (r : RawEvent),
      chosen_ev_opt item = some r →
      is_substr td (pyOrStr r.start_at (pyOrStr r.start_date "")) = false →
      prepare_event pyhash false td url item = none) := by
  have hval : ∀ (item : RawItem) (r : RawEvent), chosen_ev_opt item = some r →
      chosen_ev_val item = .dict r := by
    intro item r hr
    unfold chosen_ev_opt at hr
    rcases hv' : chosen_ev_val item with r' | _
    · rw [hv'] at hr
      simp only [Option.some.injEq] at hr
      rw [hr]
    · rw [hv'] at hr
      simp at hr
  constructor
  · intro pyhash td url item r hplat hr
    unfold prepare_event
    rw [if_neg (fun hc => hc.2 hplat), hval item r hr]
    simp
  · intro pyhash td url item r hr hsub
    unfold prepare_event
    by_cases hplat : false = true ∧ str_lower (item.platform.getD "") ≠ "luma"
    · rw [if_pos hplat]
    · rw [if_neg hplat, hval item r hr]
      simp [hsub]


/-- Witness for `c10_api_no_date_filter`: the same concrete item is a
candidate in API mode and filtered out by date in non-API mode. -/
theorem c10_api_no_date_filter_witness :
    (str_lower (c3_wit1.platform.getD "") = "luma" ∧
     chosen_ev_opt c3_wit1 = some c3_wit1.self ∧
     (prepare_event (fun _ => 0) true "2099-12-31" "https://lu.ma/hk" c3_wit1).isSome =
       true) ∧
    (chosen_ev_opt c3_wit1 = some c3_wit1.self ∧
     is_substr "2099-12-31"
       (pyOrStr c3_wit1.self.start_at (pyOrStr c3_wit1.self.start_date "")) = false ∧
     prepare_event (fun _ => 0) false "2099-12-31" "https://lu.ma/hk" c3_wit1 = none) :=
  ⟨⟨by decide, by decide,
      c10_api_no_date_filter.1 (fun _ => 0) "2099-12-31" "https://lu.ma/hk" c3_wit1
        c3_wit1.self (by decide) (by decide)⟩,
    ⟨by decide, by decide,
      c10_api_no_date_filter.2 (fun _ => 0) "2099-12-31" "https://lu.ma/hk" c3_wit1
        c3_wit1.self (by decide) (by decide)⟩⟩

/-! ## DetailFetcher (scraper.py, `fetch_event_details`, lines 81-151)

One attempt of the `for attempt in range(3)` loop observes a 200 response
with some JSON-LD body shape, a 429, another non-200 status, or an
exception (from the request, or from `json.loads` on a malformed JSON-LD
script, which the same `except` catches).  The detail cache holds the
`{"description": ...}` dictionaries this function itself writes; its value
is the description (a dictionary is truthy, so a hit returns it directly). -/

structure LdItem where
  atType : Option String
  description : Option String
deriving DecidableEq

inductive LdBody where
  /-- no `application/ld+json` script tag on the page -/
  | noScript
  /-- the script's text fails to parse (`json.loads` raises) -/
  | parseError
  /-- the parsed JSON-LD is an array of objects -/
  | ldList (items : List LdItem)
  /-- the parsed JSON-LD is a single object -/
  | ldDict (item : LdItem)
deriving DecidableEq

inductive FetchAttemptOutcome where
  | http200 (body : LdBody)
  | http429
  | httpOther
  | exn
deriving DecidableEq

inductive FetchResult where
  | returned (d : Option String)
  | raised
deriving DecidableEq

structure FetchRun where
  result : FetchResult
  sleeps : List Nat
  cacheWrite : Option String
  attempts : Nat
deriving DecidableEq

/-- `item.get("@type") == "Event" or "description" in item` (lines 111-114). -/
def ld_match (it : LdItem) : Bool :=
  (it.atType == some "Event") || it.description.isSome

/-- The retry loop of `fetch_event_details`: `a` is the attempt index,
`fuel` the remaining attempts; on 429 the sleep is `(attempt+1)*2` seconds,
on another exception 1 second (none after the final attempt); exhausting
the loop falls to the trailing `return None`.  No branch re-raises. -/
def fetch_loop (outcome : Nat → FetchAttemptOutcome) :
    Nat → Nat → List Nat → FetchRun
  | a, 0, sleeps => ⟨.returned none, sleeps.reverse, none, a⟩
  | a, fuel + 1, sleeps =>
    match outcome a with
    | .http200 body =>
      match body with
      | .noScript => ⟨.returned none, sleeps.reverse, none, a + 1⟩
      | .ldList items =>
        match items.find? ld_match with
        | some it =>
          let d := clean_description it.description
          ⟨.returned (some d), sleeps.reverse, some d, a + 1⟩
        | none => ⟨.returned none, sleeps.reverse, none, a + 1⟩
      | .ldDict it =>
        let d := clean_description it.description
        ⟨.returned (some d), sleeps.reverse, some d, a + 1⟩
      | .parseError =>
        if fuel = 0 then ⟨.returned none, sleeps.reverse, none, a + 1⟩
        else fetch_loop outcome (a + 1) fuel (1 :: sleeps)
    | .http429 => fetch_loop outcome (a + 1) fuel ((2 * (a + 1)) :: sleeps)
    | .httpOther => ⟨.returned none, sleeps.reverse, none, a + 1⟩
    | .exn =>
      if fuel = 0 then ⟨.returned none, sleeps.reverse, none, a + 1⟩
      else fetch_loop outcome (a + 1) fuel (1 :: sleeps)

/-- `fetch_event_details(client, url)` with `max_retries = 3` (line 97):
a truthy cache hit returns the cached description without touching the
network. -/
def fetch_event_details (cache : String → Option (Option String)) (url : String)
    (outcome : Nat → FetchAttemptOutcome) : FetchRun :=
  match cache url with
  | some d => ⟨.returned d, [], none, 0⟩
  | none => fetch_loop outcome 0 3 []

theorem fetch_loop_no_raise (outcome : Nat → FetchAttemptOutcome) :
    ∀ fuel a sleeps, ∃ d, (fetch_loop outcome a fuel sleeps).result = .returned d := by
  intro fuel
  induction fuel with
  | zero => intro a sleeps; exact ⟨none, rfl⟩
  | succ n ih =>
      intro a sleeps
      rcases ho : outcome a with body | _ | _ | _
      · rcases body with _ | _ | items | it
        · exact ⟨none, by simp [fetch_loop, ho]⟩
        · by_cases hn : n = 0
          · subst hn
            exact ⟨none, by simp [fetch_loop, ho]⟩
          · obtain ⟨d, hd⟩ := ih (a + 1) (1 :: sleeps)
            exact ⟨d, by simp only [fetch_loop, ho, if_neg hn]; exact hd⟩
        · rcases hf : items.find? ld_match with _ | it
          · exact ⟨none, by simp [fetch_loop, ho, hf]⟩
          · exact ⟨some (clean_description it.description), by simp [fetch_loop, ho, hf]⟩
        · exact ⟨some (clean_description it.description), by simp [fetch_loop, ho]⟩
      · obtain ⟨d, hd⟩ := ih (a + 1) ((2 * (a + 1)) :: sleeps)
        exact ⟨d, by simp only [fetch_loop, ho]; exact hd⟩
      · exact ⟨none, by simp [fetch_loop, ho]⟩
      · by_cases hn : n = 0
        · subst hn
          exact ⟨none, by simp [fetch_loop, ho]⟩
        · obtain ⟨d, hd⟩ := ih (a + 1) (1 :: sleeps)
          exact ⟨d, by simp only [fetch_loop, ho, if_neg hn]; exact hd⟩

theorem fetch_loop_attempts_le (outcome : Nat → FetchAttemptOutcome) :
    ∀ fuel a sleeps, (fetch_loop outcome a fuel sleeps).attempts ≤ a + fuel := by
  intro fuel
  induction fuel with
  | zero => intro a sleeps; simp [fetch_loop]
  | succ n ih =>
      intro a sleeps
      rcases ho : outcome a with body | _ | _ | _
      · rcases body with _ | _ | items | it
        · simp [fetch_loop, ho]
        · by_cases hn : n = 0
          · subst hn
            simp [fetch_loop, ho]
          · have := ih (a + 1) (1 :: sleeps)
            simp only [fetch_loop, ho, if_neg hn]
            omega
        · rcases hf : items.find? ld_match with _ | it <;> simp [fetch_loop, ho, hf]
        · simp [fetch_loop, ho]
      · have := ih (a + 1) ((2 * (a + 1)) :: sleeps)
        simp only [fetch_loop, ho]
        omega
      · simp [fetch_loop, ho]
      · by_cases hn : n = 0
        · subst hn
          simp [fetch_loop, ho]
        · have := ih (a + 1) (1 :: sleeps)
          simp only [fetch_loop, ho, if_neg hn]
          omega

/-- C5: the per-event detail fetch never propagates an exception (every run
terminates in a `return`), makes at most 3 attempts, returns an absent
description immediately on a non-200 non-429 response and on a parse
failure (no JSON-LD script, or none of the array items matching), and on
persistent exceptions retries with a 1-second pause between attempts and
returns an absent description after exhausting the 3 attempts. -/
theorem c5_fetch_soft_failure (cache : String → Option (Option String))
    (url : String) (outcome : Nat → FetchAttemptOutcome) :
    (∃ d, (fetch_event_details cache url outcome).result = .returned d) ∧
    ((fetch_event_details cache url outcome).attempts ≤ 3) ∧
    (cache url = none → outcome 0 = .httpOther →
      fetch_event_details cache url outcome = ⟨.returned none, [], none, 1⟩) ∧
    (cache url = none → outcome 0 = .http200 .noScript →
      fetch_event_details cache url outcome = ⟨.returned none, [], none, 1⟩) ∧
    (cache url = none → ∀ items, outcome 0 = .http200 (.ldList items) →
      items.find? ld_match = none →
      fetch_event_details cache url outcome = ⟨.returned none, [], none, 1⟩) ∧
    (cache url = none → (∀ i, i < 3 → outcome i = .exn) →
      fetch_event_details cache url outcome = ⟨.returned none, [1, 1], none, 3⟩) := by
  refine ⟨?_, ?_, ?_, ?_, ?_, ?_⟩
  · unfold fetch_event_details
    rcases hc : cache url with _ | d
    · exact fetch_loop_no_raise outcome 3 0 []
    · exact ⟨d, rfl⟩
  · unfold fetch_event_details
    rcases hc : cache url with _ | d
    · exact fetch_loop_attempts_le outcome 3 0 []
    · simp
  · intro hc ho
    unfold fetch_event_details
    rw [hc]
    rw [show fetch_loop outcome 0 3 [] =
      ⟨.returned none, [].reverse, none, 0 + 1⟩ by rw [fetch_loop, ho]]
    rfl
  · intro hc ho
    unfold fetch_event_details
    rw [hc]
    rw [show fetch_loop outcome 0 3 [] =
      ⟨.returned none, [].reverse, none, 0 + 1⟩ by rw [fetch_loop, ho]]
    rfl
  · intro hc items ho hf
    unfold fetch_event_details
    rw [hc]
    rw [fetch_loop, ho]
    simp [hf]
  · intro hc hexn
    unfold fetch_event_details
    rw [hc]
    rw [fetch_loop, hexn 0 (by omega)]
    rw [if_neg (by omega)]
    rw [fetch_loop, hexn 1 (by omega)]
    rw [if_neg (by omega)]
    rw [fetch_loop, hexn 2 (by omega)]
    rw [if_pos rfl]
    rfl

/-- Witness for `c5_fetch_soft_failure`: a cache miss with three consecutive
exceptions returns an absent description after two 1-second pauses. -/
theorem c5_fetch_soft_failure_witness :
    ((fun _ => none : String → Option (Option String)) "https://lu.ma/x" = none) ∧
    (∀ i, i < 3 → (fun _ => FetchAttemptOutcome.exn) i = FetchAttemptOutcome.exn) ∧
    fetch_event_details (fun _ => none) "https://lu.ma/x" (fun _ => FetchAttemptOutcome.exn) =
      ⟨.returned none, [1, 1], none, 3⟩ :=
  ⟨rfl, fun _ _ => rfl,
    (c5_fetch_soft_failure (fun _ => none) "https://lu.ma/x"
      (fun _ => FetchAttemptOutcome.exn)).2.2.2.2.2 rfl (fun _ _ => rfl)⟩

end Lumascope
